import Mathlib

/-!
Shallow embedding of src/app/main.py of the flesk_finder repository.

Modelling conventions:
* Python datetimes are modelled by their integer epoch timestamp.  The program
  only compares datetimes for equality, stores them via int(time.timestamp())
  and reads them back via datetime.fromtimestamp, so an injective integer
  encoding is faithful; datetime.datetime(year, month, day, hour, minute) is
  embedded as an explicit civil-to-epoch computation with the same range
  validation the Python constructor performs.
* Python Decimal values are modelled as unnormalised fixed-point numbers
  (an integer mantissa and a power-of-ten exponent), which is how Decimal
  represents the strings this program parses.
* Exceptions are modelled as Except with a string holding the Python error
  code or exception name.  A ClientError injected by the DynamoDB backend is
  modelled by an explicit fault argument.
* Network fetches (the live JSON snapshot, the zipped archive) are modelled by
  passing the fetched content in as an argument: a fetch or unzip failure is
  fatal and propagates in the source, and no claim is about the transport.
* The csv.reader with a one-space delimiter is modelled as splitting each line
  on the space character; quoting is not modelled (the archive format carries
  no quotes), and blank lines do not occur in the modelled inputs.
-/

set_option linter.unusedVariables false

/-- Exact decimal number, as the Python Decimal class represents the numeric
strings this program parses: the value is mant divided by 10 to the exp.
Representations are not normalised, matching how Decimal keeps exponents. -/
structure Dec where
  mant : Int
  exp : Nat
deriving DecidableEq, Repr

/-- Subtraction of exact decimals, used for raw gauge value minus datum. -/
def Dec.sub (a b : Dec) : Dec :=
  ⟨a.mant * (10 : Int) ^ (max a.exp b.exp - a.exp) -
     b.mant * (10 : Int) ^ (max a.exp b.exp - b.exp), max a.exp b.exp⟩

/-- The in-memory reading value object (class Level in main.py): a time and a
level value, and nothing else.  It carries no station identifier. -/
structure Level where
  time : Int
  level : Dec
deriving DecidableEq, Repr

/-- One item of the DynamoDB table river_levels: partition key river_name,
sort key timestamp, and the stored level attribute. -/
structure Item where
  river_name : String
  timestamp : Int
  level : Dec
deriving DecidableEq, Repr

/-- The DynamoDB table state, modelled as a list of items. -/
abbrev Table := List Item

/-- Whether an item with the given primary key is in the table. -/
def hasItem (t : Table) (r : String) (ts : Int) : Bool :=
  t.any (fun it => it.river_name == r && it.timestamp == ts)

/-- Number of stored items carrying the given primary key. -/
def countKey (t : Table) (r : String) (ts : Int) : Nat :=
  t.countP (fun it => it.river_name == r && it.timestamp == ts)

/-- Stored level attribute of the first item with the given key, if any. -/
def getLevel (t : Table) (r : String) (ts : Int) : Option Dec :=
  (t.find? (fun it => it.river_name == r && it.timestamp == ts)).map Item.level

def FLESK_GAUGE_NUMBER : Int := 22039

/-- Conditional single-item put, embedding update_level_db of main.py.
The level argument is an Option because Python passes the possibly-None
result of get_latest_level straight in; on None the attribute access
level.time raises AttributeError, which the except-ClientError clause does
not catch.  The fault argument injects a ClientError raised by the DynamoDB
backend itself (none means the backend behaves normally, in which case the
only ClientError is the conditional check failure).  The condition
attribute_not_exists(river_name) is evaluated by DynamoDB against the item
with the same primary key, hence it fails exactly when such an item exists. -/
def update_level_db (t : Table) (level : Option Level) (fault : Option String) :
    Except String (Table × Bool) :=
  match level with
  | none => .error "AttributeError"
  | some l =>
    match fault with
    | some code =>
      if code ≠ "ConditionalCheckFailedException" then .error code
      else .ok (t, false)
    | none =>
      if hasItem t "Flesk" l.time then .ok (t, false)
      else .ok (⟨"Flesk", l.time, l.level⟩ :: t, true)

/-- One overwriting put as performed for each item of a DynamoDB batch write:
an item with the same primary key is replaced, otherwise the item is added. -/
def put_overwrite (t : Table) (it : Item) : Table :=
  if t.any (fun x => x.river_name == it.river_name && x.timestamp == it.timestamp) then
    t.map (fun x =>
      if x.river_name == it.river_name && x.timestamp == it.timestamp then it else x)
  else t ++ [it]

/-- Batch put, embedding batch_update_level_db of main.py: the batch writer is
opened with overwrite_by_pkeys on river_name and timestamp, so for a repeated
key the most recently submitted value wins. -/
def batch_update_level_db (river_name : String) (levels : List Level) (t : Table) : Table :=
  levels.foldl (fun acc l => put_overwrite acc ⟨river_name, l.time, l.level⟩) t

/-- One entry of the live JSON snapshot.  The timestamp string is modelled by
its parsed value, the two numeric strings by their Decimal values. -/
structure Gauge where
  metadata_station_no : String
  L1_timestamp : Int
  L1_ts_value : Dec
  L1_station_gauge_datum : Dec
deriving DecidableEq, Repr

/-- Live gauge poller, embedding get_latest_level of main.py: linearly scan
the snapshot for the entry whose station number matches, build a Level from
its value minus its datum; return none (Python falls off the end of the
function after printing) when no entry matches. -/
def get_latest_level (gauges : List Gauge) (gauge_number : Int) : Option Level :=
  match gauges.find? (fun g => g.metadata_station_no == toString gauge_number) with
  | some g => some ⟨g.L1_timestamp, g.L1_ts_value.sub g.L1_station_gauge_datum⟩
  | none => none

/-- Range query, embedding get_past_data_dynamo of main.py: the DynamoDB
query condition is river_name equal and timestamp strictly greater, and the
backend returns the matching items in ascending sort-key order (modelled by
an insertion sort on the filtered items). -/
def insertByTs (it : Item) : List Item → List Item
  | [] => [it]
  | x :: xs => if it.timestamp ≤ x.timestamp then it :: x :: xs else x :: insertByTs it xs

/-- Sort a list of items by timestamp, as the DynamoDB query result is. -/
def sortByTs (l : List Item) : List Item := l.foldr insertByTs []

/-- Embeds get_past_data_dynamo of main.py. -/
def get_past_data_dynamo (river_name : String) (since_date : Int) (t : Table) : List Level :=
  (sortByTs (t.filter
      (fun it => it.river_name == river_name && decide (since_date < it.timestamp)))).map
    (fun it => ⟨it.timestamp, it.level⟩)

/-- Split a character list at every occurrence of the separator; the result
always has at least one (possibly empty) piece, as the Python str.split with
an explicit separator does. -/
def splitChars (sep : Char) : List Char → List (List Char)
  | [] => [[]]
  | c :: cs =>
    let rest := splitChars sep cs
    if c == sep then [] :: rest
    else
      match rest with
      | r :: rs => (c :: r) :: rs
      | [] => [[c]]

/-- Python str.split with a one-character separator. -/
def strSplit (s : String) (sep : Char) : List String :=
  (splitChars sep s.data).map List.asString

/-- Whether the string holds the character, as the Python in test on str. -/
def strContainsChar (s : String) (c : Char) : Bool := s.data.contains c

/-- Value of a nonempty all-digit character list, none otherwise. -/
def digitsToNat (cs : List Char) : Option Nat :=
  if cs.isEmpty then none
  else
    cs.foldl
      (fun acc c =>
        match acc with
        | none => none
        | some n => if c.isDigit then some (n * 10 + (c.toNat - 48)) else none)
      (some 0)

/-- Python int applied to a string: an optional sign followed by digits;
failure models the ValueError the int constructor raises. -/
def pyInt (s : String) : Except String Int :=
  match s.data with
  | '-' :: rest =>
    match digitsToNat rest with
    | some n => .ok (-(n : Int))
    | none => .error "ValueError"
  | '+' :: rest =>
    match digitsToNat rest with
    | some n => .ok (n : Int)
    | none => .error "ValueError"
  | cs =>
    match digitsToNat cs with
    | some n => .ok (n : Int)
    | none => .error "ValueError"

/-- List indexing as Python does it: an IndexError when out of range. -/
def listGet (xs : List String) (i : Nat) : Except String String :=
  match xs.get? i with
  | some x => .ok x
  | none => .error "IndexError"

/-- Value of an all-digit (possibly empty) character list. -/
def decimalDigitsVal (cs : List Char) : Option Nat :=
  if cs.all Char.isDigit then
    some (cs.foldl (fun n c => n * 10 + (c.toNat - 48)) 0)
  else none

/-- Magnitude part of a Decimal literal: digits with at most one point and at
least one digit somewhere. -/
def parseDecimalCore (cs : List Char) : Option Dec :=
  match splitChars '.' cs with
  | [ip] =>
    if ip.isEmpty then none
    else (decimalDigitsVal ip).map (fun n => ⟨(n : Int), 0⟩)
  | [ip, fp] =>
    if ip.isEmpty && fp.isEmpty then none
    else
      match decimalDigitsVal ip, decimalDigitsVal fp with
      | some i, some f => some ⟨(i : Int) * (10 : Int) ^ fp.length + (f : Int), fp.length⟩
      | _, _ => none
  | _ => none

/-- Python Decimal applied to a string, for the plain numeric literals the
archive carries; failure models the InvalidOperation error. -/
def parseDecimal (s : String) : Option Dec :=
  match s.data with
  | '-' :: rest => (parseDecimalCore rest).map (fun d => ⟨-d.mant, d.exp⟩)
  | '+' :: rest => parseDecimalCore rest
  | cs => parseDecimalCore cs

/-- Whether a year is a leap year, as the Python datetime module defines it. -/
def isLeap (y : Nat) : Bool := (y % 4 == 0 && y % 100 != 0) || y % 400 == 0

/-- Number of days in a month of a year. -/
def daysInMonth (y m : Nat) : Nat :=
  if m == 2 then (if isLeap y then 29 else 28)
  else if m == 4 || m == 6 || m == 9 || m == 11 then 30 else 31

/-- Days since the epoch of a civil date (the standard days-from-civil
computation); inputs are assumed already validated. -/
def civilToEpochDays (y m d : Nat) : Int :=
  let yy := if m ≤ 2 then y - 1 else y
  let era := yy / 400
  let yoe := yy % 400
  let mp := (m + 9) % 12
  let doy := (153 * mp + 2) / 5 + d - 1
  let doe := yoe * 365 + yoe / 4 - yoe / 100 + doy
  (era * 146097 + doe : Int) - 719468

/-- The Python datetime.datetime constructor with year, month, day, hour and
minute: validates the ranges (raising ValueError otherwise) and is embedded
as the epoch timestamp of the constructed naive datetime. -/
def pyDatetime (year month day hour minute : Int) : Except String Int :=
  if 1 ≤ year ∧ year ≤ 9999 ∧ 1 ≤ month ∧ month ≤ 12 ∧
      1 ≤ day ∧ day ≤ (daysInMonth year.toNat month.toNat : Int) ∧
      0 ≤ hour ∧ hour ≤ 23 ∧ 0 ≤ minute ∧ minute ≤ 59 then
    .ok (civilToEpochDays year.toNat month.toNat day.toNat * 86400 +
           hour * 3600 + minute * 60)
  else .error "ValueError"

/-- The per-row body of the loop in get_past_data_epa (main.py lines 95-109).
The date and time fields are parsed outside any exception guard, so their
failures abort the whole import; only building the Decimal from the value
field (and the indexing inside that expression) sits in the try block, whose
bare except swallows every failure, yielding none (row dropped). -/
def processRow (row : List String) : Except String (Option Level) := do
  let date := row.headD ""
  let field1 ← listGet row 1
  let time := (strSplit field1 ';').headD ""
  let y ← pyInt ((strSplit date '-').headD "")
  let mo ← pyInt (← listGet (strSplit date '-') 1)
  let d ← pyInt (← listGet (strSplit date '-') 2)
  let h ← pyInt ((strSplit time ':').headD "")
  let mi ← pyInt (← listGet (strSplit time ':') 1)
  let parsed_time ← pyDatetime y mo d h mi
  match (strSplit field1 ';').get? 1 with
  | none => return none
  | some vs =>
    match parseDecimal vs with
    | none => return none
    | some v => return some ⟨parsed_time, v⟩

/-- The non-comment rows of the archive file: each line split on the space
delimiter, keeping the rows whose first field does not hold the # marker. -/
def filteredRows (fileLines : List String) : List (List String) :=
  (fileLines.map (fun line => strSplit line ' ')).filter
    (fun row => !(strContainsChar (row.headD "") '#'))

/-- The Python slice rows[-n:]: the last n elements, except that for n = 0
the slice is rows[0:], the whole list. -/
def lastSlice (rows : List (List String)) (n : Nat) : List (List String) :=
  if n == 0 then rows else rows.drop (rows.length - n)

/-- Run the per-row parse over the rows in order, collecting the kept levels;
a row failure outside the guard aborts the whole run. -/
def collectLevels : List (List String) → Except String (List Level)
  | [] => .ok []
  | row :: rest =>
    match processRow row with
    | .error e => .error e
    | .ok none => collectLevels rest
    | .ok (some l) =>
      match collectLevels rest with
      | .error e => .error e
      | .ok ls => .ok (l :: ls)

/-- Embeds get_past_data_epa of main.py, with the extracted archive file
content passed in as its lines. -/
def get_past_data_epa (fileLines : List String) (n_last_readings : Nat) :
    Except String (List Level) :=
  collectLevels (lastSlice (filteredRows fileLines) n_last_readings)

/-- The new-levels computation of update_past_levels_table_handler (main.py
line 192): the candidate levels whose time is not among the times of the
levels already in the store window. -/
def new_river_levels (epa_levels dynamo_levels : List Level) : List Level :=
  epa_levels.filter (fun level => decide (level.time ∉ dynamo_levels.map Level.time))

/-- Embeds update_current_levels_table_handler of main.py: poll the snapshot
for the Flesk gauge and feed the result straight into the conditional put. -/
def update_current_levels_table_handler (gauges : List Gauge) (fault : Option String)
    (t : Table) : Except String (Table × Bool) :=
  update_level_db t (get_latest_level gauges FLESK_GAUGE_NUMBER) fault

/-- Embeds update_past_levels_table_handler of main.py: parse the last 3000
archive rows, read the store window of the last 50 days, diff by time, and
batch-put exactly the new levels (reporting true) when there are any. -/
def update_past_levels_table_handler (fileLines : List String) (now : Int) (t : Table) :
    Except String (Table × Bool) :=
  match get_past_data_epa fileLines 3000 with
  | .error e => .error e
  | .ok epa_levels =>
    let dynamo_levels := get_past_data_dynamo "Flesk" (now - 50 * 86400) t
    let nu := new_river_levels epa_levels dynamo_levels
    if nu = [] then .ok (t, false)
    else .ok (batch_update_level_db "Flesk" nu t, true)

/-- The level a row contributes to the import result when the import does not
abort: none when the row is dropped by the guarded value parse. -/
def rowLevel (row : List String) : Option Level :=
  match processRow row with
  | .ok o => o
  | .error _ => none

/-- A sample archive: one comment header line and ten parseable rows in
chronological order. -/
def tenRowArchive : List String :=
  ["#Datum Uhrzeit;Wert;Status",
   "2021-01-01 00:00;0;q", "2021-01-01 00:01;1;q", "2021-01-01 00:02;2;q",
   "2021-01-01 00:03;3;q", "2021-01-01 00:04;4;q", "2021-01-01 00:05;5;q",
   "2021-01-01 00:06;6;q", "2021-01-01 00:07;7;q", "2021-01-01 00:08;8;q",
   "2021-01-01 00:09;9;q"]

/-! Theorems.  Each claim of the specification is settled by one theorem
below; shared helper lemmas come first where needed. -/

theorem hasItem_eq_false_of_countKey_eq_zero {t : Table} {r : String} {ts : Int}
    (h : countKey t r ts = 0) : hasItem t r ts = false := by
  simp only [countKey, List.countP_eq_zero] at h
  simp only [hasItem, List.any_eq_false]
  exact h

/-- C1: the conditional put inserts and returns true when no item with the
key (Flesk, time) is stored; a repeated put for the same key is a benign
no-op returning false that leaves the table, and in particular the stored
level, unchanged (first write wins), and the store then holds exactly one
item for that key. -/
theorem update_level_db_conditional_put (t : Table) (l1 l2 : Level)
    (htime : l2.time = l1.time) (h : countKey t "Flesk" l1.time = 0) :
    update_level_db t (some l1) none = .ok (⟨"Flesk", l1.time, l1.level⟩ :: t, true) ∧
    update_level_db (⟨"Flesk", l1.time, l1.level⟩ :: t) (some l2) none =
      .ok (⟨"Flesk", l1.time, l1.level⟩ :: t, false) ∧
    countKey (⟨"Flesk", l1.time, l1.level⟩ :: t) "Flesk" l1.time = 1 ∧
    getLevel (⟨"Flesk", l1.time, l1.level⟩ :: t) "Flesk" l1.time = some l1.level := by
  have hfalse := hasItem_eq_false_of_countKey_eq_zero h
  refine ⟨?_, ?_, ?_, ?_⟩
  · simp [update_level_db, hfalse]
  · simp [update_level_db, hasItem, htime]
  · have h0 : t.countP (fun it => it.river_name == "Flesk" && it.timestamp == l1.time) = 0 := h
    simp [countKey, List.countP_cons, h0]
  · simp [getLevel, List.find?]

theorem update_level_db_conditional_put_witness :
    update_level_db [] (some ⟨5, ⟨12, 1⟩⟩) none = .ok ([⟨"Flesk", 5, ⟨12, 1⟩⟩], true) ∧
    update_level_db [⟨"Flesk", 5, ⟨12, 1⟩⟩] (some ⟨5, ⟨34, 1⟩⟩) none =
      .ok ([⟨"Flesk", 5, ⟨12, 1⟩⟩], false) ∧
    countKey [⟨"Flesk", 5, ⟨12, 1⟩⟩] "Flesk" 5 = 1 ∧
    getLevel [⟨"Flesk", 5, ⟨12, 1⟩⟩] "Flesk" 5 = some ⟨12, 1⟩ :=
  update_level_db_conditional_put [] ⟨5, ⟨12, 1⟩⟩ ⟨5, ⟨34, 1⟩⟩ rfl rfl

/-- C6: a backend ClientError whose code is anything other than the expected
ConditionalCheckFailedException is re-raised unchanged by the conditional
put, while the conditional-check failure is suppressed and turned into the
boolean false result. -/
theorem update_level_db_error_propagation (t : Table) (l : Level) (code : String)
    (h : code ≠ "ConditionalCheckFailedException") :
    update_level_db t (some l) (some code) = .error code ∧
    update_level_db t (some l) (some "ConditionalCheckFailedException") = .ok (t, false) := by
  constructor
  · simp [update_level_db, h]
  · simp [update_level_db]

theorem update_level_db_error_propagation_witness :
    update_level_db [] (some ⟨5, ⟨12, 1⟩⟩) (some "InternalServerError") =
      .error "InternalServerError" ∧
    update_level_db [] (some ⟨5, ⟨12, 1⟩⟩) (some "ConditionalCheckFailedException") =
      .ok ([], false) :=
  update_level_db_error_propagation [] ⟨5, ⟨12, 1⟩⟩ "InternalServerError" (by decide)

/-- C10: the Level value object is just a time and a level (it is equal to
the structure rebuilt from those two fields alone, carrying no station
identifier), and whatever item the conditional put adds to the table is
stored under the fixed partition key Flesk with the level data of the
submitted reading. -/
theorem update_level_db_fixed_partition (t : Table) (l : Level) (fault : Option String)
    (t1 : Table) (b : Bool) (h : update_level_db t (some l) fault = .ok (t1, b)) :
    (∀ it ∈ t1, it ∈ t ∨ it = ⟨"Flesk", l.time, l.level⟩) ∧
    (∀ a : Level, a = ⟨a.time, a.level⟩) := by
  refine ⟨?_, fun a => rfl⟩
  intro it hit
  unfold update_level_db at h
  cases fault with
  | some code =>
    by_cases hc : code = "ConditionalCheckFailedException"
    · subst hc
      simp only [ne_eq, not_true_eq_false, if_false, ite_false, Except.ok.injEq,
        Prod.mk.injEq, reduceIte] at h
      obtain ⟨h1, _⟩ := h
      subst h1
      exact Or.inl hit
    · simp [hc] at h
  | none =>
    by_cases hmem : hasItem t "Flesk" l.time
    · simp only [hmem, if_true, Except.ok.injEq, Prod.mk.injEq, ite_true] at h
      obtain ⟨h1, _⟩ := h
      subst h1
      exact Or.inl hit
    · simp only [hmem, if_false, Except.ok.injEq, Prod.mk.injEq, Bool.false_eq_true,
        ite_false] at h
      obtain ⟨h1, _⟩ := h
      subst h1
      rcases List.mem_cons.mp hit with h2 | h2
      · exact Or.inr h2
      · exact Or.inl h2

theorem update_level_db_fixed_partition_witness :
    (⟨"Flesk", 5, ⟨12, 1⟩⟩ : Item) ∈ ([] : Table) ∨
      (⟨"Flesk", 5, ⟨12, 1⟩⟩ : Item) = ⟨"Flesk", 5, ⟨12, 1⟩⟩ :=
  (update_level_db_fixed_partition [] ⟨5, ⟨12, 1⟩⟩ none [⟨"Flesk", 5, ⟨12, 1⟩⟩] true rfl).1
    ⟨"Flesk", 5, ⟨12, 1⟩⟩ (List.mem_singleton.mpr rfl)

/-- C2: the backfill new-set computation keeps exactly the candidate readings
whose timestamp is not among the timestamps of the existing store window, in
candidate order; with an existing window at times 1 and 2 and candidates at
times 1, 2 and 3, the new set is exactly the candidate at time 3. -/
theorem new_river_levels_dedup :
    (∀ (epa_levels dynamo_levels : List Level) (l : Level),
        l ∈ new_river_levels epa_levels dynamo_levels ↔
          l ∈ epa_levels ∧ l.time ∉ dynamo_levels.map Level.time) ∧
    new_river_levels [⟨1, ⟨7, 0⟩⟩, ⟨2, ⟨8, 0⟩⟩, ⟨3, ⟨9, 0⟩⟩] [⟨1, ⟨5, 0⟩⟩, ⟨2, ⟨6, 0⟩⟩] =
      [⟨3, ⟨9, 0⟩⟩] := by
  constructor
  · intro epa_levels dynamo_levels l
    simp [new_river_levels, List.mem_filter]
  · rfl

theorem mem_insertByTs {x it : Item} : ∀ {l : List Item},
    x ∈ insertByTs it l ↔ x = it ∨ x ∈ l := by
  intro l
  induction l with
  | nil => simp [insertByTs]
  | cons y ys ih =>
    by_cases hle : it.timestamp ≤ y.timestamp
    · simp [insertByTs, hle]
    · simp only [insertByTs, hle, if_false, List.mem_cons, ih, ite_false]
      tauto

theorem mem_sortByTs {x : Item} : ∀ {l : List Item}, x ∈ sortByTs l ↔ x ∈ l := by
  intro l
  induction l with
  | nil => simp [sortByTs]
  | cons y ys ih =>
    simp only [sortByTs, List.foldr_cons, mem_insertByTs, List.mem_cons]
    constructor
    · rintro (h | h)
      · exact Or.inl h
      · exact Or.inr (ih.mp h)
    · rintro (h | h)
      · exact Or.inl h
      · exact Or.inr (ih.mpr h)

/-- C7: the range query returns exactly the readings of the station whose
timestamp is strictly greater than the bound; on a store holding timestamps
100, 200 and 300 queried since 200, only the reading at 300 comes back. -/
theorem get_past_data_dynamo_range :
    (∀ (t : Table) (river_name : String) (since_date : Int) (l : Level),
        l ∈ get_past_data_dynamo river_name since_date t ↔
          ∃ it ∈ t, it.river_name = river_name ∧ since_date < it.timestamp ∧
            l = ⟨it.timestamp, it.level⟩) ∧
    get_past_data_dynamo "Flesk" 200
        [⟨"Flesk", 100, ⟨1, 0⟩⟩, ⟨"Flesk", 200, ⟨2, 0⟩⟩, ⟨"Flesk", 300, ⟨3, 0⟩⟩] =
      [⟨300, ⟨3, 0⟩⟩] := by
  constructor
  · intro t river_name since_date l
    simp only [get_past_data_dynamo, List.mem_map, mem_sortByTs, List.mem_filter,
      Bool.and_eq_true, beq_iff_eq, decide_eq_true_eq]
    constructor
    · rintro ⟨it, ⟨⟨hmem, hr, hts⟩, hl⟩⟩
      exact ⟨it, hmem, hr, hts, hl.symm⟩
    · rintro ⟨it, hmem, hr, hts, hl⟩
      exact ⟨it, ⟨⟨hmem, hr, hts⟩, hl.symm⟩⟩
  · rfl

/-- C4: when the requested station is absent from the live snapshot the
poller does return an absent result instead of raising, but the live-mode
handler feeds that absent result straight into the conditional put, whose
attribute access on None raises AttributeError; the ingestion therefore ends
in an exception, not in the quiet no-data outcome the specification
describes. -/
theorem live_absent_station_behavior (gauges : List Gauge) (t : Table)
    (h : ∀ g ∈ gauges, g.metadata_station_no ≠ "22039") :
    get_latest_level gauges FLESK_GAUGE_NUMBER = none ∧
    update_current_levels_table_handler gauges none t = .error "AttributeError" := by
  have htos : toString FLESK_GAUGE_NUMBER = "22039" := rfl
  have hfind : gauges.find? (fun g => g.metadata_station_no == toString FLESK_GAUGE_NUMBER)
      = none := by
    rw [List.find?_eq_none]
    intro g hg
    simp only [beq_iff_eq, htos]
    exact h g hg
  have hlatest : get_latest_level gauges FLESK_GAUGE_NUMBER = none := by
    rw [get_latest_level, hfind]
  refine ⟨hlatest, ?_⟩
  rw [update_current_levels_table_handler, hlatest]
  rfl

theorem live_absent_station_behavior_witness :
    get_latest_level [] FLESK_GAUGE_NUMBER = none ∧
    update_current_levels_table_handler [] none [] = .error "AttributeError" :=
  live_absent_station_behavior [] [] (by simp)

/-- C8: in a single parsing pass, a comment-prefixed line is discarded, a
line whose value field is not a decimal is silently excluded without
aborting the import, and a line with valid date, time and value fields is
kept: the three-line archive below yields exactly the one valid reading. -/
theorem get_past_data_epa_malformed_value_tolerated :
    get_past_data_epa
        ["#Werte", "2021-01-02 03:04;1.5;q", "2021-01-02 03:19;abc;q"] 100 =
      .ok [⟨civilToEpochDays 2021 1 2 * 86400 + 3 * 3600 + 4 * 60, ⟨15, 1⟩⟩] := rfl

theorem collectLevels_error (pre : List (List String)) (row : List String)
    (post : List (List String)) (e : String)
    (hpre : ∀ r ∈ pre, ∃ o, processRow r = .ok o)
    (hrow : processRow row = .error e) :
    collectLevels (pre ++ row :: post) = .error e := by
  induction pre with
  | nil => simp only [List.nil_append, collectLevels, hrow]
  | cons p ps ih =>
    obtain ⟨o, ho⟩ := hpre p (List.mem_cons_self p ps)
    have ih2 := ih (fun r hr => hpre r (List.mem_cons_of_mem _ hr))
    have hstep : (p :: ps) ++ row :: post = p :: (ps ++ row :: post) := rfl
    cases o with
    | none =>
      have hred : collectLevels (p :: (ps ++ row :: post)) =
          collectLevels (ps ++ row :: post) := by
        simp only [collectLevels, ho]
      rw [hstep, hred, ih2]
    | some l =>
      have hred : collectLevels (p :: (ps ++ row :: post)) =
          match collectLevels (ps ++ row :: post) with
          | .error e => .error e
          | .ok ls => .ok (l :: ls) := by
        simp only [collectLevels, ho]
      rw [hstep, hred, ih2]

/-- C9: only a failing value parse is tolerated; when one of the considered
rows has a malformed date or time field (a non-integer component or missing
parts), the failure happens outside the per-row guard and the whole import
raises, returning no readings at all. -/
theorem get_past_data_epa_malformed_date_raises (fileLines : List String) (n : Nat)
    (pre : List (List String)) (row : List String) (post : List (List String)) (e : String)
    (hsplit : lastSlice (filteredRows fileLines) n = pre ++ row :: post)
    (hpre : ∀ r ∈ pre, ∃ o, processRow r = .ok o)
    (hrow : processRow row = .error e) :
    get_past_data_epa fileLines n = .error e := by
  rw [get_past_data_epa, hsplit]
  exact collectLevels_error pre row post e hpre hrow

theorem get_past_data_epa_malformed_date_raises_witness :
    get_past_data_epa ["2021-01-02 03:04;1.5;q", "2021-0x-02 03:19;1.5;q"] 100 =
      .error "ValueError" :=
  get_past_data_epa_malformed_date_raises
    ["2021-01-02 03:04;1.5;q", "2021-0x-02 03:19;1.5;q"] 100
    [["2021-01-02", "03:04;1.5;q"]] ["2021-0x-02", "03:19;1.5;q"] [] "ValueError"
    rfl
    (by
      intro r hr
      simp only [List.mem_singleton] at hr
      subst hr
      exact ⟨some ⟨civilToEpochDays 2021 1 2 * 86400 + 3 * 3600 + 4 * 60, ⟨15, 1⟩⟩, rfl⟩)
    rfl

/-- C5 counterexample: at requested count 0 the Python slice rows[-0:] is the
whole file, so a one-row archive yields one reading and the claimed bound
length at most N fails. -/
theorem get_past_data_epa_zero_count_counterexample :
    (get_past_data_epa ["2021-01-02 03:04;1.5;q"] 0).map List.length = .ok 1 ∧
    ¬ (1 ≤ (0 : Nat)) := ⟨rfl, by decide⟩

theorem collectLevels_ok_filterMap : ∀ {rows : List (List String)} {ls : List Level},
    collectLevels rows = .ok ls → ls = rows.filterMap rowLevel := by
  intro rows
  induction rows with
  | nil =>
    intro ls h
    simp only [collectLevels, Except.ok.injEq] at h
    simp [← h]
  | cons row rest ih =>
    intro ls h
    rcases hpr : processRow row with e | o
    · rw [collectLevels, hpr] at h
      exact absurd h (by simp)
    · cases o with
      | none =>
        rw [collectLevels, hpr] at h
        rw [List.filterMap_cons, rowLevel, hpr]
        exact ih h
      | some l =>
        rw [collectLevels, hpr] at h
        rcases hrec : collectLevels rest with e2 | ls2
        · rw [hrec] at h
          exact absurd h (by simp)
        · rw [hrec] at h
          simp only [Except.ok.injEq] at h
          rw [List.filterMap_cons, rowLevel, hpr, ← h, ih hrec]

/-- C5 (amended: the requested count N is at least 1; at N = 0 the Python
slice considers every row, as the counterexample shows): the importer
returns exactly the readings of the last N non-comment lines whose value
field parses, in file order (oldest first), and the result length is at
most N; requesting the last 3 readings of a ten-row archive returns exactly
the final 3, in chronological order. -/
theorem get_past_data_epa_lastN (fileLines : List String) (n : Nat) (hn : 1 ≤ n) :
    (∀ levels, get_past_data_epa fileLines n = .ok levels →
        levels = (lastSlice (filteredRows fileLines) n).filterMap rowLevel ∧
        levels.length ≤ n) ∧
    get_past_data_epa tenRowArchive 3 =
      .ok [⟨civilToEpochDays 2021 1 1 * 86400 + 7 * 60, ⟨7, 0⟩⟩,
           ⟨civilToEpochDays 2021 1 1 * 86400 + 8 * 60, ⟨8, 0⟩⟩,
           ⟨civilToEpochDays 2021 1 1 * 86400 + 9 * 60, ⟨9, 0⟩⟩] := by
  constructor
  · intro levels h
    have hfm := collectLevels_ok_filterMap h
    refine ⟨hfm, ?_⟩
    rw [hfm]
    have h1 : ((lastSlice (filteredRows fileLines) n).filterMap rowLevel).length ≤
        (lastSlice (filteredRows fileLines) n).length := List.length_filterMap_le _ _
    have hne : n ≠ 0 := by omega
    have h2 : (lastSlice (filteredRows fileLines) n).length ≤ n := by
      simp only [lastSlice, beq_iff_eq, hne, if_false, List.length_drop, ite_false]
      omega
    omega
  · rfl

theorem get_past_data_epa_lastN_witness :
    ([⟨civilToEpochDays 2021 1 1 * 86400 + 7 * 60, ⟨7, 0⟩⟩,
      ⟨civilToEpochDays 2021 1 1 * 86400 + 8 * 60, ⟨8, 0⟩⟩,
      ⟨civilToEpochDays 2021 1 1 * 86400 + 9 * 60, ⟨9, 0⟩⟩] =
        (lastSlice (filteredRows tenRowArchive) 3).filterMap rowLevel ∧
      ([⟨civilToEpochDays 2021 1 1 * 86400 + 7 * 60, ⟨7, 0⟩⟩,
        ⟨civilToEpochDays 2021 1 1 * 86400 + 8 * 60, ⟨8, 0⟩⟩,
        ⟨civilToEpochDays 2021 1 1 * 86400 + 9 * 60, ⟨9, 0⟩⟩] : List Level).length ≤ 3) ∧
    get_past_data_epa tenRowArchive 3 =
      .ok [⟨civilToEpochDays 2021 1 1 * 86400 + 7 * 60, ⟨7, 0⟩⟩,
           ⟨civilToEpochDays 2021 1 1 * 86400 + 8 * 60, ⟨8, 0⟩⟩,
           ⟨civilToEpochDays 2021 1 1 * 86400 + 9 * 60, ⟨9, 0⟩⟩] :=
  ⟨(get_past_data_epa_lastN tenRowArchive 3 (by decide)).1 _ rfl,
   (get_past_data_epa_lastN tenRowArchive 3 (by decide)).2⟩

theorem hasKey_put_overwrite {t : Table} {it : Item} {r : String} {ts : Int} :
    (∃ x ∈ put_overwrite t it, x.river_name = r ∧ x.timestamp = ts) ↔
      (∃ x ∈ t, x.river_name = r ∧ x.timestamp = ts) ∨
        (it.river_name = r ∧ it.timestamp = ts) := by
  by_cases hc : t.any (fun x => x.river_name == it.river_name && x.timestamp == it.timestamp)
  · obtain ⟨x0, hx0, hpx0⟩ := List.any_eq_true.mp hc
    rw [put_overwrite, if_pos hc]
    constructor
    · rintro ⟨y, hy, hyr, hyts⟩
      obtain ⟨x, hx, hfx⟩ := List.mem_map.mp hy
      by_cases hpx : (x.river_name == it.river_name && x.timestamp == it.timestamp) = true
      · rw [if_pos hpx] at hfx
        subst hfx
        exact Or.inr ⟨hyr, hyts⟩
      · rw [if_neg hpx] at hfx
        subst hfx
        exact Or.inl ⟨x, hx, hyr, hyts⟩
    · rintro (⟨x, hx, hxr, hxts⟩ | ⟨hitr, hitts⟩)
      · by_cases hpx : (x.river_name == it.river_name && x.timestamp == it.timestamp) = true
        · have hpx2 : x.river_name = it.river_name ∧ x.timestamp = it.timestamp := by
            simpa using hpx
          refine ⟨it, List.mem_map.mpr ⟨x, hx, if_pos hpx⟩, ?_, ?_⟩
          · rw [← hpx2.1]
            exact hxr
          · rw [← hpx2.2]
            exact hxts
        · exact ⟨x, List.mem_map.mpr ⟨x, hx, if_neg hpx⟩, hxr, hxts⟩
      · exact ⟨it, List.mem_map.mpr ⟨x0, hx0, if_pos hpx0⟩, hitr, hitts⟩
  · rw [put_overwrite, if_neg hc]
    constructor
    · rintro ⟨x, hx, hxr, hxts⟩
      rcases List.mem_append.mp hx with h | h
      · exact Or.inl ⟨x, h, hxr, hxts⟩
      · rw [List.mem_singleton] at h
        subst h
        exact Or.inr ⟨hxr, hxts⟩
    · rintro (⟨x, hx, hxr, hxts⟩ | ⟨hr, hts⟩)
      · exact ⟨x, List.mem_append.mpr (Or.inl hx), hxr, hxts⟩
      · exact ⟨it, List.mem_append.mpr (Or.inr (List.mem_singleton.mpr rfl)), hr, hts⟩

theorem hasKey_batch (rn : String) (levels : List Level) (t : Table) (r : String) (ts : Int) :
    (∃ x ∈ batch_update_level_db rn levels t, x.river_name = r ∧ x.timestamp = ts) ↔
      (∃ x ∈ t, x.river_name = r ∧ x.timestamp = ts) ∨
        ∃ l ∈ levels, rn = r ∧ l.time = ts := by
  induction levels generalizing t with
  | nil => simp [batch_update_level_db]
  | cons l ls ih =>
    have hfold : batch_update_level_db rn (l :: ls) t =
        batch_update_level_db rn ls (put_overwrite t ⟨rn, l.time, l.level⟩) := rfl
    rw [hfold, ih, hasKey_put_overwrite]
    constructor
    · rintro ((h | ⟨hr, hts⟩) | ⟨l2, hl2, hr, hts⟩)
      · exact Or.inl h
      · exact Or.inr ⟨l, List.mem_cons_self l ls, hr, hts⟩
      · exact Or.inr ⟨l2, List.mem_cons_of_mem l hl2, hr, hts⟩
    · rintro (h | ⟨l2, hl2, hr, hts⟩)
      · exact Or.inl (Or.inl h)
      · rcases List.mem_cons.mp hl2 with h2 | h2
        · subst h2
          exact Or.inl (Or.inr ⟨hr, hts⟩)
        · exact Or.inr ⟨l2, h2, hr, hts⟩

theorem mem_dynamo_times {t : Table} {r : String} {since ts : Int} :
    ts ∈ (get_past_data_dynamo r since t).map Level.time ↔
      ∃ it ∈ t, it.river_name = r ∧ it.timestamp = ts ∧ since < ts := by
  simp only [get_past_data_dynamo, List.map_map, List.mem_map, mem_sortByTs,
    List.mem_filter, Bool.and_eq_true, beq_iff_eq, decide_eq_true_eq, Function.comp]
  constructor
  · rintro ⟨it, ⟨hmem, hr, hsince⟩, hts⟩
    exact ⟨it, hmem, hr, hts, hts ▸ hsince⟩
  · rintro ⟨it, hmem, hr, hts, hsince⟩
    exact ⟨it, ⟨hmem, hr, hts ▸ hsince⟩, hts⟩

theorem handler_eq_of_epa {fileLines : List String} {now : Int} {t : Table}
    {epa : List Level} (hepa : get_past_data_epa fileLines 3000 = .ok epa) :
    update_past_levels_table_handler fileLines now t =
      if new_river_levels epa (get_past_data_dynamo "Flesk" (now - 50 * 86400) t) = [] then
        .ok (t, false)
      else
        .ok (batch_update_level_db "Flesk"
          (new_river_levels epa (get_past_data_dynamo "Flesk" (now - 50 * 86400) t)) t,
          true) := by
  delta update_past_levels_table_handler
  rw [hepa]

/-- C3: backfill reconciliation is idempotent.  If one run succeeds (with the
archive levels all inside the 50-day store window, which is what makes the
second run see the first writes) then a second run on the resulting table
reports false and returns the table unchanged, so the store gains nothing;
and whenever the computed new set is empty the mode reports false and issues
no batch put at all. -/
theorem backfill_idempotent (fileLines : List String) (t : Table) (now : Int)
    (epa : List Level) (t1 : Table) (b1 : Bool)
    (hepa : get_past_data_epa fileLines 3000 = .ok epa)
    (hwin : ∀ l ∈ epa, now - 50 * 86400 < l.time)
    (h1 : update_past_levels_table_handler fileLines now t = .ok (t1, b1)) :
    update_past_levels_table_handler fileLines now t1 = .ok (t1, false) ∧
    (new_river_levels epa (get_past_data_dynamo "Flesk" (now - 50 * 86400) t) = [] →
      update_past_levels_table_handler fileLines now t = .ok (t, false)) := by
  have hrw1 := @handler_eq_of_epa fileLines now t epa hepa
  have hrw2 := @handler_eq_of_epa fileLines now t1 epa hepa
  refine ⟨?_, fun hnil => by rw [hrw1, if_pos hnil]⟩
  by_cases hnil : new_river_levels epa (get_past_data_dynamo "Flesk" (now - 50 * 86400) t) = []
  · rw [hrw1, if_pos hnil] at h1
    simp only [Except.ok.injEq, Prod.mk.injEq] at h1
    obtain ⟨ht, hb⟩ := h1
    subst ht
    rw [hrw2, if_pos hnil]
  · rw [hrw1, if_neg hnil] at h1
    simp only [Except.ok.injEq, Prod.mk.injEq] at h1
    obtain ⟨ht, hb⟩ := h1
    have hempty :
        new_river_levels epa (get_past_data_dynamo "Flesk" (now - 50 * 86400) t1) = [] := by
      rw [new_river_levels, List.filter_eq_nil_iff]
      intro l hl
      simp only [decide_eq_true_eq, not_not]
      rw [mem_dynamo_times, ← ht]
      by_cases hmem : l.time ∈ (get_past_data_dynamo "Flesk" (now - 50 * 86400) t).map Level.time
      · obtain ⟨it, hit, hitr, hitts, _⟩ := mem_dynamo_times.mp hmem
        obtain ⟨x, hx, hxr, hxts⟩ :=
          (hasKey_batch "Flesk"
              (new_river_levels epa (get_past_data_dynamo "Flesk" (now - 50 * 86400) t))
              t "Flesk" l.time).mpr (Or.inl ⟨it, hit, hitr, hitts⟩)
        exact ⟨x, hx, hxr, hxts, hwin l hl⟩
      · have hlnu :
            l ∈ new_river_levels epa (get_past_data_dynamo "Flesk" (now - 50 * 86400) t) := by
          rw [new_river_levels, List.mem_filter]
          exact ⟨hl, by simpa using hmem⟩
        obtain ⟨x, hx, hxr, hxts⟩ :=
          (hasKey_batch "Flesk"
              (new_river_levels epa (get_past_data_dynamo "Flesk" (now - 50 * 86400) t))
              t "Flesk" l.time).mpr (Or.inr ⟨l, hlnu, rfl, rfl⟩)
        exact ⟨x, hx, hxr, hxts, hwin l hl⟩
    rw [hrw2, if_pos hempty]

theorem backfill_idempotent_witness :
    update_past_levels_table_handler ["2021-01-02 03:04;1.5;q"]
        (civilToEpochDays 2021 1 2 * 86400 + 3 * 3600 + 4 * 60)
        [⟨"Flesk", civilToEpochDays 2021 1 2 * 86400 + 3 * 3600 + 4 * 60, ⟨15, 1⟩⟩] =
      .ok ([⟨"Flesk", civilToEpochDays 2021 1 2 * 86400 + 3 * 3600 + 4 * 60, ⟨15, 1⟩⟩],
        false) :=
  (backfill_idempotent ["2021-01-02 03:04;1.5;q"] []
      (civilToEpochDays 2021 1 2 * 86400 + 3 * 3600 + 4 * 60)
      [⟨civilToEpochDays 2021 1 2 * 86400 + 3 * 3600 + 4 * 60, ⟨15, 1⟩⟩]
      [⟨"Flesk", civilToEpochDays 2021 1 2 * 86400 + 3 * 3600 + 4 * 60, ⟨15, 1⟩⟩] true
      rfl (by decide) rfl).1
